/- Formal model of the HarmonyCare emergency backend (src/index.js).

   The Express handlers are embedded as pure functions over an explicit
   world state (emergency store, device directory, audit log, dispatched
   pushes).  Firestore's `runTransaction` serializes transactions, so the
   accept transaction is modelled as a single atomic step on the store.
   JS numbers used as identifiers and timestamps are modelled as `Int`
   (with JS truthiness `!x` on a number id meaning `x = 0` or absence);
   coordinates stored in records are modelled as `ℚ` and the haversine
   computation over them as a function on `ℝ`.  `Array.prototype.sort`
   is stable per ECMAScript, so the volunteer sort is modelled by the
   stable `List.insertionSort` with the comparator's total preorder. -/
import Mathlib

namespace Harmony

/-- JS truthiness of an optional string (absent, `null` and `""` are falsy). -/
def tokenTruthy : Option String → Bool
  | none => false
  | some s => s ≠ ""

/-- A device-directory record (collection `devices`, doc id `role_userId`). -/
structure Device where
  userId : Int
  role : String
  fcmToken : Option String
  isAvailable : Bool
  latitude : Option ℚ
  longitude : Option ℚ
  lastSeenAt : Option Int
deriving DecidableEq

/-- An emergency record (collection `emergencies`). -/
structure Emergency where
  id : Int
  elderlyId : Int
  latitude : ℚ
  longitude : ℚ
  status : String
  volunteerId : Option Int
  createdAt : Int
  acceptedAt : Option Int
  updatedAt : Int
deriving DecidableEq

/-- An audit-log entry (collection `audit_logs`); `notifiedVolunteerUserIds`
    is present only on `pushed_to_volunteers` entries. -/
structure AuditEntry where
  emergencyId : Int
  action : String
  actorRole : String
  actorUserId : Option Int
  notifiedVolunteerUserIds : Option (List Int)
  createdAt : Int
deriving DecidableEq

/-- A dispatched push message (send-to-many or send-to-one). -/
structure Push where
  tokens : List String
  payload : List (String × String)
deriving DecidableEq

/-- The emergency store: association list keyed by the numeric doc id. -/
abbrev EmStore := List (Int × Emergency)

/-- Look up an emergency document by id. -/
def EmStore.get : EmStore → Int → Option Emergency
  | [], _ => none
  | (k', e') :: rest, k => if k' = k then some e' else EmStore.get rest k

/-- `doc(id).set(e)`: replace the document if present, else create it. -/
def EmStore.set : EmStore → Int → Emergency → EmStore
  | [], k, e => [(k, e)]
  | (k', e') :: rest, k, e =>
      if k' = k then (k, e) :: rest else (k', e') :: EmStore.set rest k e

/-- The whole backend state touched by the handlers. -/
structure WorldState where
  emergencies : EmStore
  devices : List (String × Device)
  auditLog : List AuditEntry
  pushes : List Push
deriving DecidableEq

/-- Look up a device document by its string doc id. -/
def lookupDevice (w : WorldState) (docId : String) : Option Device :=
  (w.devices.find? (fun p => p.1 = docId)).map (fun p => p.2)

/-- `haversineKm` from src/index.js lines 27-39: great-circle distance in km,
    Earth radius 6371, inputs in degrees. -/
noncomputable def haversineKm (aLat aLon bLat bLon : ℝ) : ℝ :=
  let R : ℝ := 6371
  let dLat := (bLat - aLat) * Real.pi / 180
  let dLon := (bLon - aLon) * Real.pi / 180
  let lat1 := aLat * Real.pi / 180
  let lat2 := bLat * Real.pi / 180
  let sinDLat := Real.sin (dLat / 2)
  let sinDLon := Real.sin (dLon / 2)
  let h := sinDLat * sinDLat + Real.cos lat1 * Real.cos lat2 * (sinDLon * sinDLon)
  2 * R * Real.arcsin (Real.sqrt h)

/-- One entry of the volunteer dispatch list built in the Report handler. -/
structure VolEntry where
  userId : Int
  fcmToken : String
  distanceKm : Option ℝ

/-- The freshness window for volunteer presence: 10 minutes in ms. -/
def maxAgeMs : Int := 10 * 60 * 1000

/-- Build one dispatch entry from a device (lines 172-181): distance is
    computed only when both coordinates are numeric, else left null. -/
noncomputable def mkVolEntry (emLat emLon : ℚ) (d : Device) : VolEntry :=
  { userId := d.userId
    fcmToken := d.fcmToken.getD ""
    distanceKm :=
      match d.latitude, d.longitude with
      | some la, some lo => some (haversineKm emLat emLon (la : ℝ) (lo : ℝ))
      | _, _ => none }

/-- The filtering loop of lines 164-182: skip candidates whose token is
    falsy, skip candidates whose last heartbeat (0 when not a number) is
    older than 10 minutes, keep the rest in encounter order. -/
noncomputable def filterVolunteers (now : Int) (emLat emLon : ℚ) :
    List Device → List VolEntry
  | [] => []
  | d :: rest =>
      let lastSeenAt := d.lastSeenAt.getD 0
      if tokenTruthy d.fcmToken = false then filterVolunteers now emLat emLon rest
      else if now - lastSeenAt > maxAgeMs then filterVolunteers now emLat emLon rest
      else mkVolEntry emLat emLon d :: filterVolunteers now emLat emLon rest

/-- The total preorder induced by the comparator of lines 184-189:
    `cmp a b ≤ 0`.  Unknown distances compare after known ones and tie
    with each other. -/
def volLe (a b : VolEntry) : Prop :=
  match a.distanceKm, b.distanceKm with
  | none, none => True
  | none, some _ => False
  | some _, none => True
  | some x, some y => x ≤ y

noncomputable instance instDecVolLe : DecidableRel volLe := fun a b =>
  match a, b with
  | ⟨_, _, none⟩, ⟨_, _, none⟩ => isTrue trivial
  | ⟨_, _, none⟩, ⟨_, _, some _⟩ => isFalse (fun h => h)
  | ⟨_, _, some _⟩, ⟨_, _, none⟩ => isTrue trivial
  | ⟨_, _, some x⟩, ⟨_, _, some y⟩ => Classical.dec (x ≤ y)

instance instTotalVolLe : IsTotal VolEntry volLe :=
  ⟨fun a b =>
    match a, b with
    | ⟨_, _, none⟩, ⟨_, _, none⟩ => Or.inl trivial
    | ⟨_, _, none⟩, ⟨_, _, some _⟩ => Or.inr trivial
    | ⟨_, _, some _⟩, ⟨_, _, none⟩ => Or.inl trivial
    | ⟨_, _, some x⟩, ⟨_, _, some y⟩ => le_total x y⟩

instance instTransVolLe : IsTrans VolEntry volLe :=
  ⟨fun a b c hab hbc =>
    match a, b, c, hab, hbc with
    | ⟨_, _, none⟩, ⟨_, _, none⟩, ⟨_, _, none⟩, _, _ => trivial
    | ⟨_, _, none⟩, ⟨_, _, none⟩, ⟨_, _, some _⟩, _, h => h
    | ⟨_, _, some _⟩, _, ⟨_, _, none⟩, _, _ => trivial
    | ⟨_, _, some _⟩, ⟨_, _, none⟩, ⟨_, _, some _⟩, _, h => h.elim
    | ⟨_, _, none⟩, ⟨_, _, some _⟩, _, h, _ => h.elim
    | ⟨_, _, some _⟩, ⟨_, _, some _⟩, ⟨_, _, some _⟩, h1, h2 => le_trans h1 h2⟩

/-- `volunteers.sort(cmp)` of lines 184-189, modelled by a stable sort. -/
noncomputable def sortVolunteers (l : List VolEntry) : List VolEntry :=
  List.insertionSort volLe l

/-- `volunteers.slice(0, 10)` of line 191. -/
noncomputable def topVolunteers (l : List VolEntry) : List VolEntry :=
  (sortVolunteers l).take 10

/-- HTTP-level outcome of a handler. -/
inductive HttpResult where
  | ok
  | okCleanup (deleted : Nat) (days : Int)
  | created (id : Int)
  | badRequest (msg : String)
  | notFound
  | conflict
  | forbidden
  | serverError
deriving DecidableEq

/-- Body of POST /api/emergencies.  A field is `none` when it is absent
    or not of the expected JS type. -/
structure ReportReq where
  elderly_id : Option Int
  latitude : Option ℚ
  longitude : Option ℚ
  timestamp : Option Int
  status : Option String

/-- Line 133: use the client timestamp when it is a truthy positive
    number, otherwise the current time. -/
def deriveEmergencyId (ts : Option Int) (now : Int) : Int :=
  match ts with
  | some t => if t > 0 then t else now
  | none => now

/-- Line 141: `String(status || 'active')` (absent and `""` are falsy). -/
def statusOrActive : Option String → String
  | none => "active"
  | some s => if s = "" then "active" else s

/-- The brand-new emergency document built at lines 136-145. -/
def mkEmergencyDoc (eid elderly : Int) (lat lon : ℚ) (st : Option String)
    (now : Int) : Emergency :=
  { id := eid
    elderlyId := elderly
    latitude := lat
    longitude := lon
    status := statusOrActive st
    volunteerId := none
    createdAt := now
    acceptedAt := none
    updatedAt := now }

/-- One store/audit/notification effect of the Report handler, in the
    order the handler awaits them. -/
inductive Step where
  | setEmergency (id : Int) (doc : Emergency)
  | addAudit (a : AuditEntry)
  | sendMulticast (tokens : List String) (payload : List (String × String))

/-- Apply one effect to the world. -/
def applyStep (w : WorldState) : Step → WorldState
  | .setEmergency id doc => { w with emergencies := EmStore.set w.emergencies id doc }
  | .addAudit a => { w with auditLog := w.auditLog ++ [a] }
  | .sendMulticast tks pl => { w with pushes := w.pushes ++ [⟨tks, pl⟩] }

/-- Run effects left to right.  When the dispatcher fails, the first
    `sendMulticast` rejects and control jumps to the handler's catch:
    earlier writes stay, later steps never run, and the run is flagged
    unsuccessful. -/
def runSteps (notifyFails : Bool) (w : WorldState) : List Step → WorldState × Bool
  | [] => (w, true)
  | .sendMulticast tks pl :: rest =>
      if notifyFails then (w, false)
      else runSteps notifyFails (applyStep w (.sendMulticast tks pl)) rest
  | .setEmergency id doc :: rest =>
      runSteps notifyFails (applyStep w (.setEmergency id doc)) rest
  | .addAudit a :: rest =>
      runSteps notifyFails (applyStep w (.addAudit a)) rest

/-- The device snapshot of lines 157-162: volunteers flagged available,
    capped at 200. -/
def volunteerSnapshot (w : WorldState) : List Device :=
  ((w.devices.map (fun p => p.2)).filter
    (fun d => d.role == "volunteer" && d.isAvailable)).take 200

/-- The ranked dispatch list the Report handler builds for an emergency
    at (lat, lon) reported at `now`. -/
noncomputable def dispatchTop (w : WorldState) (now : Int) (lat lon : ℚ) :
    List VolEntry :=
  topVolunteers (filterVolunteers now lat lon (volunteerSnapshot w))

/-- Line 192: `top.map(v => v.fcmToken).filter(Boolean)`. -/
noncomputable def dispatchTokens (w : WorldState) (now : Int) (lat lon : ℚ) :
    List String :=
  ((dispatchTop w now lat lon).map (fun v => v.fcmToken)).filter (fun s => s ≠ "")

/-- The data payload of the `emergency_new` multicast (lines 197-203). -/
def reportPayload (emergencyId elderly : Int) (lat lon : ℚ) :
    List (String × String) :=
  [("type", "emergency_new"),
   ("emergency_id", toString emergencyId),
   ("elderly_id", toString elderly),
   ("latitude", toString lat),
   ("longitude", toString lon)]

/-- The validated Report handler body (lines 133-214) as its ordered
    effect list, together with the derived emergency id.  `none` when
    validation fails at lines 129-131. -/
noncomputable def reportSteps (w : WorldState) (req : ReportReq) (now : Int) :
    Option (Int × List Step) :=
  match req.elderly_id, req.latitude, req.longitude with
  | some eid, some lat, some lon =>
      if eid = 0 then none
      else
        let emergencyId := deriveEmergencyId req.timestamp now
        let doc := mkEmergencyDoc emergencyId eid lat lon req.status now
        let notifySteps :=
          if dispatchTokens w now lat lon = [] then ([] : List Step)
          else [Step.sendMulticast (dispatchTokens w now lat lon)
                  (reportPayload emergencyId eid lat lon),
                Step.addAudit ⟨emergencyId, "pushed_to_volunteers", "system", none,
                               some ((dispatchTop w now lat lon).map (fun v => v.userId)),
                               now⟩]
        some (emergencyId,
              Step.setEmergency emergencyId doc ::
              Step.addAudit ⟨emergencyId, "created", "elderly", some eid, none, now⟩ ::
              notifySteps)
  | _, _, _ => none

/-- POST /api/emergencies (lines 123-220).  `notifyFails` says whether the
    multicast dispatch rejects; a rejection is caught by the handler's
    catch-all and reported as a server error. -/
noncomputable def report (w : WorldState) (req : ReportReq) (now : Int)
    (notifyFails : Bool) : WorldState × HttpResult :=
  match reportSteps w req now with
  | none => (w, .badRequest "elderly_id, latitude, longitude are required")
  | some (id, steps) =>
      match runSteps notifyFails w steps with
      | (w', true) => (w', .created id)
      | (w', false) => (w', .serverError)

/-- The conditional update written inside the accept transaction
    (lines 294-299). -/
def acceptUpdate (e : Emergency) (v now : Int) : Emergency :=
  { e with status := "accepted", volunteerId := some v,
           acceptedAt := some now, updatedAt := now }

/-- Failure modes of the accept transaction. -/
inductive AcceptErr where
  | notFound
  | alreadyTaken
deriving DecidableEq

/-- The `db.runTransaction` body of lines 282-300 as one atomic step on
    the store: read, check existence, check `status === 'active'`, and
    conditionally write.  On failure the store is untouched. -/
def acceptTx (s : EmStore) (emergencyId v now : Int) : EmStore × Option AcceptErr :=
  match EmStore.get s emergencyId with
  | none => (s, some .notFound)
  | some current =>
      if current.status ≠ "active" then (s, some .alreadyTaken)
      else (EmStore.set s emergencyId (acceptUpdate current v now), none)

/-- The patch of lines 338-345 for the generic (non-accept) status path:
    `volunteer_id` is `none` when absent, `some none` for an explicit
    null, `some (some v)` for a number. -/
def patchEmergency (e : Emergency) (st : String) (volunteer_id : Option (Option Int))
    (now : Int) : Emergency :=
  { e with status := st, updatedAt := now,
           volunteerId :=
             match volunteer_id with
             | none => e.volunteerId
             | some ov => ov }

/-- Lines 319-335: the post-commit tail of the accept path (the audit
    entry is already appended by the caller): re-read the emergency, look
    up the reporter's device and, when it has a truthy token, send the
    single-token push; a dispatcher failure is caught by the catch-all
    only after the transition has committed. -/
def acceptNotify (w2 : WorldState) (emergencyId v : Int) (notifyFails : Bool) :
    WorldState × HttpResult :=
  match EmStore.get w2.emergencies emergencyId with
  | none => (w2, .ok)
  | some em =>
      match lookupDevice w2 ("elderly_" ++ toString em.elderlyId) with
      | none => (w2, .ok)
      | some dev =>
          match dev.fcmToken with
          | none => (w2, .ok)
          | some tk =>
              if tk = "" then (w2, .ok)
              else if notifyFails then (w2, .serverError)
              else
                ({ w2 with pushes := w2.pushes ++
                    [⟨[tk], [("type", "emergency_accepted"),
                             ("emergency_id", toString emergencyId),
                             ("volunteer_id", toString v)]⟩] }, .ok)

/-- PUT /api/emergencies/:id (lines 259-366).  On the accept path the
    post-commit notification to the reporter may fail (`notifyFails`);
    that failure is caught by the catch-all after the transition has
    already committed. -/
noncomputable def putEmergency (w : WorldState) (emergencyId : Int)
    (status : Option String) (volunteer_id : Option (Option Int)) (now : Int)
    (notifyFails : Bool) : WorldState × HttpResult :=
  if emergencyId = 0 then (w, .badRequest "Invalid emergency id")
  else
    match status with
    | none => (w, .badRequest "status is required")
    | some st =>
        if st = "" then (w, .badRequest "status is required")
        else if st = "accepted" then
          match volunteer_id with
          | some (some v) =>
              if v = 0 then (w, .badRequest "volunteer_id is required for accepted")
              else
                let t := acceptTx w.emergencies emergencyId v now
                match t.2 with
                | some .notFound => (w, .notFound)
                | some .alreadyTaken => (w, .conflict)
                | none =>
                    acceptNotify
                      { w with emergencies := t.1,
                               auditLog := w.auditLog ++
                                 [⟨emergencyId, "accepted", "volunteer", some v, none, now⟩] }
                      emergencyId v notifyFails
          | _ => (w, .badRequest "volunteer_id is required for accepted")
        else
          match EmStore.get w.emergencies emergencyId with
          | none => (w, .notFound)
          | some e =>
              ({ w with
                  emergencies :=
                    EmStore.set w.emergencies emergencyId
                      (patchEmergency e st volunteer_id now),
                  auditLog := w.auditLog ++
                    [⟨emergencyId, "status_" ++ st, "system", none, none, now⟩] }, .ok)

/-- POST /api/admin/cleanup (lines 368-397).  `adminTokenEnv` models the
    ADMIN_TOKEN environment variable (absent or a string, `""` falsy),
    `headerToken` the x-admin-token request header. -/
def cleanup (w : WorldState) (adminTokenEnv headerToken : Option String)
    (daysQuery retentionDaysEnv : Option Int) (now : Int) :
    WorldState × HttpResult :=
  if tokenTruthy adminTokenEnv = false ∨ headerToken ≠ adminTokenEnv then
    (w, .forbidden)
  else
    let days :=
      match daysQuery with
      | some d => d
      | none => retentionDaysEnv.getD 30
    let cutoff := now - days * 24 * 60 * 60 * 1000
    let toDelete := (w.emergencies.filter (fun p => decide (p.2.createdAt < cutoff))).take 200
    let remaining := w.emergencies.filter (fun p => decide (p ∈ toDelete) = false)
    ({ w with emergencies := remaining }, .okCleanup toDelete.length days)

/-- Records reachable for one emergency id through Report with no
    client-supplied status, the accept transaction, and generic status
    updates that do not name a volunteer id.  The boolean tracks whether
    the record has passed through `accepted`. -/
inductive ReachRec : Emergency → Bool → Prop where
  | report (elderly : Int) (lat lon : ℚ) (ts : Option Int) (now : Int) :
      elderly ≠ 0 →
      ReachRec (mkEmergencyDoc (deriveEmergencyId ts now) elderly lat lon none now) false
  | accept (e : Emergency) (b : Bool) (v now : Int) :
      ReachRec e b → e.status = "active" → v ≠ 0 →
      ReachRec (acceptUpdate e v now) true
  | patch (e : Emergency) (b : Bool) (st : String) (now : Int) :
      ReachRec e b → st ≠ "" → st ≠ "accepted" →
      ReachRec (patchEmergency e st none now) b

/-- Run a sequence of accept transactions, all on the same emergency id,
    counting the successful transitions. -/
def runAcceptTxs (s : EmStore) (emergencyId : Int) :
    List (Int × Int) → EmStore × Nat
  | [] => (s, 0)
  | (v, now) :: rest =>
      match acceptTx s emergencyId v now with
      | (s', none) =>
          let r := runAcceptTxs s' emergencyId rest
          (r.1, r.2 + 1)
      | (s', some _) => runAcceptTxs s' emergencyId rest

/-- A sample world holding one active emergency with id 7 and no devices. -/
def sampleWorld : WorldState :=
  { emergencies := [(7, mkEmergencyDoc 7 5 10 20 none 100)]
    devices := []
    auditLog := []
    pushes := [] }

/-- A sample world with one fresh, available, tokened volunteer device
    that has no stored location. -/
def sampleDeviceWorld : WorldState :=
  { emergencies := []
    devices := [("volunteer_1", ⟨1, "volunteer", some "t", true, none, none, some 100⟩)]
    auditLog := []
    pushes := [] }

theorem EmStore.get_set_self (s : EmStore) (k : Int) (e : Emergency) :
    EmStore.get (EmStore.set s k e) k = some e := by
  induction s with
  | nil => simp [EmStore.set, EmStore.get]
  | cons p rest ih =>
      obtain ⟨k', e'⟩ := p
      by_cases h : k' = k
      · simp [EmStore.set, EmStore.get, h]
      · simp [EmStore.set, EmStore.get, h, ih]

theorem haversineKm_self (aLat aLon : ℝ) : haversineKm aLat aLon aLat aLon = 0 := by
  simp [haversineKm]

theorem haversineKm_comm (aLat aLon bLat bLon : ℝ) :
    haversineKm aLat aLon bLat bLon = haversineKm bLat bLon aLat aLon := by
  simp only [haversineKm]
  congr 1
  congr 1
  congr 1
  rw [show (aLat - bLat) * Real.pi / 180 / 2 = -((bLat - aLat) * Real.pi / 180 / 2) by ring,
      show (aLon - bLon) * Real.pi / 180 / 2 = -((bLon - aLon) * Real.pi / 180 / 2) by ring]
  simp only [Real.sin_neg]
  ring

theorem haversineKm_ref_eq : haversineKm 0 0 0 1 = 6371 * Real.pi / 180 := by
  have hs : (0 : ℝ) ≤ Real.sin (Real.pi / 180 / 2) := by
    apply Real.sin_nonneg_of_nonneg_of_le_pi
    · positivity
    · nlinarith [Real.pi_pos]
  simp only [haversineKm]
  rw [show ((0 : ℝ) - 0) * Real.pi / 180 / 2 = 0 by ring,
      show ((1 : ℝ) - 0) * Real.pi / 180 / 2 = Real.pi / 180 / 2 by ring,
      show (0 : ℝ) * Real.pi / 180 = 0 by ring]
  rw [Real.sin_zero, Real.cos_zero]
  rw [show (0 : ℝ) * 0 + 1 * 1 *
        (Real.sin (Real.pi / 180 / 2) * Real.sin (Real.pi / 180 / 2)) =
      Real.sin (Real.pi / 180 / 2) * Real.sin (Real.pi / 180 / 2) by ring]
  rw [Real.sqrt_mul_self hs]
  rw [Real.arcsin_sin (by nlinarith [Real.pi_pos]) (by nlinarith [Real.pi_pos])]
  ring

/-- C7: the geo distance utility (haversine, Earth radius 6371 km) gives
    distance zero from any point to itself, is symmetric in its two
    points, and maps the reference pair (0,0)-(0,1) to approximately
    111.19 km (within 0.01 km). -/
theorem geo_distance_utility_properties :
    (∀ aLat aLon : ℝ, haversineKm aLat aLon aLat aLon = 0) ∧
    (∀ aLat aLon bLat bLon : ℝ,
        haversineKm aLat aLon bLat bLon = haversineKm bLat bLon aLat aLon) ∧
    |haversineKm 0 0 0 1 - 111.19| < 1 / 100 := by
  refine ⟨haversineKm_self, haversineKm_comm, ?_⟩
  rw [haversineKm_ref_eq, abs_lt]
  constructor <;> nlinarith [Real.pi_gt_d6, Real.pi_lt_d6]

/-- C5: the volunteer filtering loop keeps exactly the candidates that
    have a truthy push token and whose last heartbeat (0 when absent,
    hence maximally stale) is at most 10 minutes before selection time,
    in encounter order; all others are excluded. -/
theorem volunteer_filtering_characterization :
    ∀ (now : Int) (emLat emLon : ℚ) (ds : List Device),
      filterVolunteers now emLat emLon ds =
        (ds.filter (fun d => tokenTruthy d.fcmToken &&
            decide (now - d.lastSeenAt.getD 0 ≤ 10 * 60 * 1000))).map
          (mkVolEntry emLat emLon) := by
  intro now emLat emLon ds
  induction ds with
  | nil => rfl
  | cons d rest ih =>
      simp only [filterVolunteers]
      by_cases h1 : tokenTruthy d.fcmToken = false
      · rw [if_pos h1, ih, List.filter_cons_of_neg (by simp [h1])]
      · have h1' : tokenTruthy d.fcmToken = true := by
          cases h : tokenTruthy d.fcmToken
          · exact absurd h h1
          · rfl
        rw [if_neg h1]
        have hm : maxAgeMs = 10 * 60 * 1000 := rfl
        by_cases h2 : now - d.lastSeenAt.getD 0 > maxAgeMs
        · rw [if_pos h2, ih,
            List.filter_cons_of_neg (by simp [h1', decide_eq_true_eq]; omega)]
        · rw [if_neg h2,
            List.filter_cons_of_pos (by simp [h1', decide_eq_true_eq]; omega),
            List.map_cons, ih]

theorem orderedInsert_filter_of_neg {α : Type} (r : α → α → Prop) [DecidableRel r]
    (p : α → Bool) (a : α) (ha : p a = false) :
    ∀ L : List α, (List.orderedInsert r a L).filter p = L.filter p := by
  intro L
  induction L with
  | nil => simp [ha]
  | cons b L ih =>
      by_cases h : r a b
      · simp only [List.orderedInsert, if_pos h]
        rw [List.filter_cons_of_neg (by simp [ha])]
      · simp only [List.orderedInsert, if_neg h]
        by_cases hb : p b = true
        · rw [List.filter_cons_of_pos hb, List.filter_cons_of_pos hb, ih]
        · rw [List.filter_cons_of_neg hb, List.filter_cons_of_neg hb, ih]

theorem orderedInsert_filter_of_pos {α : Type} (r : α → α → Prop) [DecidableRel r]
    (p : α → Bool) (a : α) (ha : p a = true) (hall : ∀ x, p x = true → r a x) :
    ∀ L : List α, (List.orderedInsert r a L).filter p = a :: L.filter p := by
  intro L
  induction L with
  | nil => simp [ha]
  | cons b L ih =>
      by_cases h : r a b
      · simp only [List.orderedInsert, if_pos h]
        rw [List.filter_cons_of_pos ha]
      · have hb : ¬ p b = true := fun hpb => h (hall b hpb)
        simp only [List.orderedInsert, if_neg h]
        rw [List.filter_cons_of_neg hb, ih, List.filter_cons_of_neg hb]

theorem insertionSort_filter_ties {α : Type} (r : α → α → Prop) [DecidableRel r]
    (p : α → Bool) (hties : ∀ x y, p x = true → p y = true → r x y) :
    ∀ l : List α, (List.insertionSort r l).filter p = l.filter p := by
  intro l
  induction l with
  | nil => rfl
  | cons a l ih =>
      simp only [List.insertionSort]
      by_cases ha : p a = true
      · rw [orderedInsert_filter_of_pos r p a ha (fun x hx => hties a x ha hx), ih,
            List.filter_cons_of_pos ha]
      · have ha' : p a = false := by
          cases h : p a
          · rfl
          · exact absurd h ha
        rw [orderedInsert_filter_of_neg r p a ha', ih, List.filter_cons_of_neg ha]

/-- C6: the dispatch list is the 10-entry prefix of a stable sort of the
    filtered candidates: at most 10 entries, sorted by the comparator's
    preorder (ascending known distances, unknown distances last), the
    sorted list is a permutation of the input, and every class of tied
    entries (equal distance value, including unknown-vs-unknown) keeps
    its encounter order. -/
theorem volunteer_selector_output :
    ∀ l : List VolEntry,
      (topVolunteers l).length ≤ 10 ∧
      List.Sorted volLe (topVolunteers l) ∧
      List.Pairwise (fun a b => a.distanceKm = none → b.distanceKm = none)
        (topVolunteers l) ∧
      List.Perm (sortVolunteers l) l ∧
      ∀ d : Option ℝ,
        (sortVolunteers l).filter (fun v => decide (v.distanceKm = d)) =
          l.filter (fun v => decide (v.distanceKm = d)) := by
  intro l
  have hsorted : List.Sorted volLe (sortVolunteers l) :=
    List.sorted_insertionSort volLe l
  have htake : List.Sorted volLe (topVolunteers l) :=
    List.Pairwise.sublist (List.take_sublist 10 _) hsorted
  refine ⟨?_, htake, ?_, List.perm_insertionSort volLe l, ?_⟩
  · exact List.length_take_le 10 (sortVolunteers l)
  · refine htake.imp ?_
    rintro ⟨ua, ta, da⟩ ⟨ub, tb, db⟩ hab ha
    cases da with
    | none =>
        cases db with
        | none => rfl
        | some x => exact False.elim hab
    | some x => exact Option.noConfusion ha
  · intro d
    apply insertionSort_filter_ties
    rintro ⟨ux, tx, dx⟩ ⟨uy, ty, dy⟩ hx hy
    have hx' : dx = d := of_decide_eq_true hx
    have hy' : dy = d := of_decide_eq_true hy
    cases d with
    | none =>
        rw [hx', hy']
        trivial
    | some r =>
        rw [hx', hy']
        exact le_refl r

theorem acceptTx_notFound (s : EmStore) (id v now : Int)
    (h : EmStore.get s id = none) :
    acceptTx s id v now = (s, some AcceptErr.notFound) := by
  simp only [acceptTx, h]

theorem acceptTx_conflict (s : EmStore) (id v now : Int) (e : Emergency)
    (h : EmStore.get s id = some e) (ha : e.status ≠ "active") :
    acceptTx s id v now = (s, some AcceptErr.alreadyTaken) := by
  simp only [acceptTx, h]
  rw [if_pos ha]

theorem acceptTx_ok (s : EmStore) (id v now : Int) (e : Emergency)
    (h : EmStore.get s id = some e) (ha : e.status = "active") :
    acceptTx s id v now = (EmStore.set s id (acceptUpdate e v now), none) := by
  simp only [acceptTx, h]
  rw [if_neg (by simp [ha])]

theorem acceptUpdate_status (e : Emergency) (v now : Int) :
    (acceptUpdate e v now).status = "accepted" := rfl

theorem runAcceptTxs_inactive (s : EmStore) (id : Int) (e : Emergency)
    (h : EmStore.get s id = some e) (ha : e.status ≠ "active") :
    ∀ calls, runAcceptTxs s id calls = (s, 0) := by
  intro calls
  induction calls with
  | nil => rfl
  | cons c rest ih =>
      obtain ⟨v, n⟩ := c
      simp only [runAcceptTxs]
      rw [acceptTx_conflict s id v n e h ha]
      exact ih

theorem runAcceptTxs_le_one (s : EmStore) (id : Int) :
    ∀ calls, (runAcceptTxs s id calls).2 ≤ 1 := by
  intro calls
  induction calls generalizing s with
  | nil => simp [runAcceptTxs]
  | cons c rest ih =>
      obtain ⟨v, n⟩ := c
      simp only [runAcceptTxs]
      cases hget : EmStore.get s id with
      | none =>
          rw [acceptTx_notFound s id v n hget]
          exact ih s
      | some e =>
          by_cases ha : e.status = "active"
          · rw [acceptTx_ok s id v n e hget ha]
            show (runAcceptTxs (EmStore.set s id (acceptUpdate e v n)) id rest).2 + 1 ≤ 1
            rw [runAcceptTxs_inactive (EmStore.set s id (acceptUpdate e v n)) id
                  (acceptUpdate e v n) (EmStore.get_set_self s id (acceptUpdate e v n))
                  (by rw [acceptUpdate_status]; intro hc; exact absurd hc (by decide)) rest]
          · rw [acceptTx_conflict s id v n e hget ha]
            exact ih s

theorem acceptNotify_emergencies (w2 : WorldState) (id v : Int) (nf : Bool) :
    (acceptNotify w2 id v nf).1.emergencies = w2.emergencies := by
  simp only [acceptNotify]
  split
  · rfl
  · split
    · rfl
    · split
      · rfl
      · split
        · rfl
        · split
          · rfl
          · rfl

theorem acceptNotify_result (w2 : WorldState) (id v : Int) (nf : Bool) :
    ((acceptNotify w2 id v nf).2 = HttpResult.ok ∨
      (acceptNotify w2 id v nf).2 = HttpResult.serverError) ∧
    (nf = false → (acceptNotify w2 id v nf).2 = HttpResult.ok) := by
  simp only [acceptNotify]
  split
  · exact ⟨Or.inl rfl, fun _ => rfl⟩
  · split
    · exact ⟨Or.inl rfl, fun _ => rfl⟩
    · split
      · exact ⟨Or.inl rfl, fun _ => rfl⟩
      · split
        · exact ⟨Or.inl rfl, fun _ => rfl⟩
        · split
          · rename_i hnf
            refine ⟨Or.inr rfl, fun hf => ?_⟩
            rw [hf] at hnf
            exact absurd hnf (by decide)
          · exact ⟨Or.inl rfl, fun _ => rfl⟩

theorem putEmergency_accept_notFound (w : WorldState) (id v now : Int) (nf : Bool)
    (hid : id ≠ 0) (hv : v ≠ 0) (h : EmStore.get w.emergencies id = none) :
    putEmergency w id (some "accepted") (some (some v)) now nf =
      (w, HttpResult.notFound) := by
  simp only [putEmergency, if_neg hid]
  rw [if_neg (by decide : ¬ ("accepted" = "")), if_pos trivial, if_neg hv, acceptTx_notFound w.emergencies id v now h]

theorem putEmergency_accept_conflict (w : WorldState) (id v now : Int) (nf : Bool)
    (e : Emergency) (hid : id ≠ 0) (hv : v ≠ 0)
    (h : EmStore.get w.emergencies id = some e) (ha : e.status ≠ "active") :
    putEmergency w id (some "accepted") (some (some v)) now nf =
      (w, HttpResult.conflict) := by
  simp only [putEmergency, if_neg hid]
  rw [if_neg (by decide : ¬ ("accepted" = "")), if_pos trivial, if_neg hv, acceptTx_conflict w.emergencies id v now e h ha]

theorem putEmergency_accept_success (w : WorldState) (id v now : Int) (nf : Bool)
    (e : Emergency) (hid : id ≠ 0) (hv : v ≠ 0)
    (h : EmStore.get w.emergencies id = some e) (ha : e.status = "active") :
    ((putEmergency w id (some "accepted") (some (some v)) now nf).1.emergencies =
        EmStore.set w.emergencies id (acceptUpdate e v now)) ∧
    ((putEmergency w id (some "accepted") (some (some v)) now nf).2 = HttpResult.ok ∨
      (putEmergency w id (some "accepted") (some (some v)) now nf).2 =
        HttpResult.serverError) ∧
    (nf = false →
      (putEmergency w id (some "accepted") (some (some v)) now nf).2 = HttpResult.ok) := by
  simp only [putEmergency, if_neg hid]
  rw [if_neg (by decide : ¬ ("accepted" = "")), if_pos trivial, if_neg hv,
      acceptTx_ok w.emergencies id v now e h ha]
  exact ⟨acceptNotify_emergencies _ id v nf,
         (acceptNotify_result _ id v nf).1,
         (acceptNotify_result _ id v nf).2⟩

theorem deriveEmergencyId_pos (t now : Int) (ht : t > 0) :
    deriveEmergencyId (some t) now = t := by
  simp [deriveEmergencyId, ht]

theorem reportSteps_eq (w : WorldState) (elderly : Int) (lat lon : ℚ)
    (ts : Option Int) (st : Option String) (now : Int) (helderly : elderly ≠ 0) :
    reportSteps w ⟨some elderly, some lat, some lon, ts, st⟩ now =
      some (deriveEmergencyId ts now,
        Step.setEmergency (deriveEmergencyId ts now)
            (mkEmergencyDoc (deriveEmergencyId ts now) elderly lat lon st now) ::
        Step.addAudit ⟨deriveEmergencyId ts now, "created", "elderly", some elderly,
                       none, now⟩ ::
        (if dispatchTokens w now lat lon = [] then ([] : List Step)
         else [Step.sendMulticast (dispatchTokens w now lat lon)
                 (reportPayload (deriveEmergencyId ts now) elderly lat lon),
               Step.addAudit ⟨deriveEmergencyId ts now, "pushed_to_volunteers", "system",
                              none,
                              some ((dispatchTop w now lat lon).map (fun v => v.userId)),
                              now⟩])) := by
  simp only [reportSteps]
  rw [if_neg helderly]

theorem report_run_facts (w : WorldState) (elderly : Int) (lat lon : ℚ)
    (ts : Option Int) (st : Option String) (now : Int) (nf : Bool)
    (helderly : elderly ≠ 0) :
    EmStore.get (report w ⟨some elderly, some lat, some lon, ts, st⟩ now nf).1.emergencies
        (deriveEmergencyId ts now) =
      some (mkEmergencyDoc (deriveEmergencyId ts now) elderly lat lon st now) ∧
    (⟨deriveEmergencyId ts now, "created", "elderly", some elderly, none, now⟩ :
        AuditEntry) ∈
      (report w ⟨some elderly, some lat, some lon, ts, st⟩ now nf).1.auditLog ∧
    ((report w ⟨some elderly, some lat, some lon, ts, st⟩ now nf).2 =
        HttpResult.created (deriveEmergencyId ts now) ∨
      (report w ⟨some elderly, some lat, some lon, ts, st⟩ now nf).2 =
        HttpResult.serverError) ∧
    (nf = false →
      (report w ⟨some elderly, some lat, some lon, ts, st⟩ now nf).2 =
        HttpResult.created (deriveEmergencyId ts now)) := by
  have hs := reportSteps_eq w elderly lat lon ts st now helderly
  by_cases htk : dispatchTokens w now lat lon = []
  · rw [if_pos htk] at hs
    have hrep : report w ⟨some elderly, some lat, some lon, ts, st⟩ now nf =
        ({ w with
            emergencies := EmStore.set w.emergencies (deriveEmergencyId ts now)
              (mkEmergencyDoc (deriveEmergencyId ts now) elderly lat lon st now),
            auditLog := w.auditLog ++
              [⟨deriveEmergencyId ts now, "created", "elderly", some elderly, none, now⟩] },
         HttpResult.created (deriveEmergencyId ts now)) := by
      simp only [report]
      rw [hs]
      rfl
    rw [hrep]
    exact ⟨EmStore.get_set_self _ _ _,
           List.mem_append_right _ (List.mem_singleton_self _),
           Or.inl rfl, fun _ => rfl⟩
  · rw [if_neg htk] at hs
    cases nf with
    | false =>
        have hrep : report w ⟨some elderly, some lat, some lon, ts, st⟩ now false =
            ({ w with
                emergencies := EmStore.set w.emergencies (deriveEmergencyId ts now)
                  (mkEmergencyDoc (deriveEmergencyId ts now) elderly lat lon st now),
                auditLog := (w.auditLog ++
                  [⟨deriveEmergencyId ts now, "created", "elderly", some elderly, none,
                    now⟩]) ++
                  [⟨deriveEmergencyId ts now, "pushed_to_volunteers", "system", none,
                    some ((dispatchTop w now lat lon).map (fun v => v.userId)), now⟩],
                pushes := w.pushes ++
                  [⟨dispatchTokens w now lat lon,
                    reportPayload (deriveEmergencyId ts now) elderly lat lon⟩] },
             HttpResult.created (deriveEmergencyId ts now)) := by
          simp only [report]
          rw [hs]
          rfl
        rw [hrep]
        exact ⟨EmStore.get_set_self _ _ _,
               List.mem_append_left _
                 (List.mem_append_right _ (List.mem_singleton_self _)),
               Or.inl rfl, fun _ => rfl⟩
    | true =>
        have hrep : report w ⟨some elderly, some lat, some lon, ts, st⟩ now true =
            ({ w with
                emergencies := EmStore.set w.emergencies (deriveEmergencyId ts now)
                  (mkEmergencyDoc (deriveEmergencyId ts now) elderly lat lon st now),
                auditLog := w.auditLog ++
                  [⟨deriveEmergencyId ts now, "created", "elderly", some elderly, none,
                    now⟩] },
             HttpResult.serverError) := by
          simp only [report]
          rw [hs]
          rfl
        rw [hrep]
        exact ⟨EmStore.get_set_self _ _ _,
               List.mem_append_right _ (List.mem_singleton_self _),
               Or.inr rfl, fun hf => Bool.noConfusion hf⟩

/-- C1 counterexample: the claim says at most one Accept call ever
    succeeds per emergency id, but a generic status update can set the
    status back to `active`, after which a second Accept on the same id
    succeeds again: here both Accept calls on id 7 return ok and each
    transitions the record from `active` to `accepted`. -/
theorem accept_exactly_once_counterexample :
    (EmStore.get sampleWorld.emergencies 7).map Emergency.status = some "active" ∧
    (putEmergency sampleWorld 7 (some "accepted") (some (some 3)) 200 false).2 =
      HttpResult.ok ∧
    (EmStore.get (putEmergency sampleWorld 7 (some "accepted") (some (some 3)) 200
        false).1.emergencies 7).map Emergency.status = some "accepted" ∧
    (putEmergency (putEmergency sampleWorld 7 (some "accepted") (some (some 3)) 200
        false).1 7 (some "active") none 300 false).2 = HttpResult.ok ∧
    (EmStore.get (putEmergency (putEmergency sampleWorld 7 (some "accepted")
        (some (some 3)) 200 false).1 7 (some "active") none 300
        false).1.emergencies 7).map Emergency.status = some "active" ∧
    (putEmergency (putEmergency (putEmergency sampleWorld 7 (some "accepted")
        (some (some 3)) 200 false).1 7 (some "active") none 300 false).1
        7 (some "accepted") (some (some 9)) 400 false).2 = HttpResult.ok ∧
    (EmStore.get (putEmergency (putEmergency (putEmergency sampleWorld 7
        (some "accepted") (some (some 3)) 200 false).1 7 (some "active") none 300
        false).1 7 (some "accepted") (some (some 9)) 400
        false).1.emergencies 7).map Emergency.status = some "accepted" :=
  ⟨rfl, rfl, rfl, rfl, rfl, rfl, rfl⟩

/-- C1 (amended): as long as no generic status update sets the record
    back to `active`, at most one Accept transaction per emergency id
    ever succeeds; in particular two Accept calls racing on the same
    active emergency (serialized in either order by the transactional
    store, which performs the read-check-write as one atomic step) yield
    exactly one ok and one Conflict, and the persisted volunteerId is
    the winner's. -/
theorem accept_exactly_once_amended :
    (∀ (s : EmStore) (emergencyId : Int) (calls : List (Int × Int)),
        (runAcceptTxs s emergencyId calls).2 ≤ 1) ∧
    (∀ (w : WorldState) (emergencyId v1 v2 n1 n2 : Int) (e : Emergency),
        EmStore.get w.emergencies emergencyId = some e → e.status = "active" →
        emergencyId ≠ 0 → v1 ≠ 0 → v2 ≠ 0 → v1 ≠ v2 →
        (putEmergency w emergencyId (some "accepted") (some (some v1)) n1 false).2 =
            HttpResult.ok ∧
        (putEmergency
            (putEmergency w emergencyId (some "accepted") (some (some v1)) n1 false).1
            emergencyId (some "accepted") (some (some v2)) n2 false).2 =
          HttpResult.conflict ∧
        EmStore.get (putEmergency
            (putEmergency w emergencyId (some "accepted") (some (some v1)) n1 false).1
            emergencyId (some "accepted") (some (some v2)) n2 false).1.emergencies
            emergencyId =
          some (acceptUpdate e v1 n1)) := by
  refine ⟨runAcceptTxs_le_one, ?_⟩
  intro w id v1 v2 n1 n2 e hget ha hid hv1 hv2 hne
  obtain ⟨hstore1, _, hok1⟩ :=
    putEmergency_accept_success w id v1 n1 false e hid hv1 hget ha
  have hget1 : EmStore.get
      (putEmergency w id (some "accepted") (some (some v1)) n1 false).1.emergencies id =
      some (acceptUpdate e v1 n1) := by
    rw [hstore1]
    exact EmStore.get_set_self _ _ _
  have hconf := putEmergency_accept_conflict
      (putEmergency w id (some "accepted") (some (some v1)) n1 false).1
      id v2 n2 false (acceptUpdate e v1 n1) hid hv2 hget1
      (by rw [acceptUpdate_status]; decide)
  refine ⟨hok1 rfl, ?_, ?_⟩
  · rw [hconf]
  · rw [hconf]
    exact hget1

/-- C1 witness: the amended theorem applied to the sample world with one
    active emergency (id 7) and two accepting volunteers 3 and 9. -/
theorem accept_exactly_once_witness :
    (runAcceptTxs sampleWorld.emergencies 7 [(3, 200), (9, 300)]).2 ≤ 1 ∧
    ((putEmergency sampleWorld 7 (some "accepted") (some (some 3)) 200 false).2 =
        HttpResult.ok ∧
      (putEmergency (putEmergency sampleWorld 7 (some "accepted") (some (some 3)) 200
          false).1 7 (some "accepted") (some (some 9)) 300 false).2 =
        HttpResult.conflict ∧
      EmStore.get (putEmergency (putEmergency sampleWorld 7 (some "accepted")
          (some (some 3)) 200 false).1 7 (some "accepted") (some (some 9)) 300
          false).1.emergencies 7 =
        some (acceptUpdate (mkEmergencyDoc 7 5 10 20 none 100) 3 200)) :=
  ⟨accept_exactly_once_amended.1 sampleWorld.emergencies 7 [(3, 200), (9, 300)],
   accept_exactly_once_amended.2 sampleWorld 7 3 9 200 300
     (mkEmergencyDoc 7 5 10 20 none 100) rfl rfl (by decide) (by decide) (by decide)
     (by decide)⟩

/-- C2: with a valid id and volunteer id, the accept path fails with
    NotFound exactly when no record with that id exists, fails with
    Conflict exactly when the record exists but its status is not
    `active` at the transaction, and in both failure cases the whole
    world (in particular the emergency record) is unchanged. -/
theorem accept_error_semantics (w : WorldState) (emergencyId v now : Int) (nf : Bool)
    (hid : emergencyId ≠ 0) (hv : v ≠ 0) :
    ((putEmergency w emergencyId (some "accepted") (some (some v)) now nf).2 =
        HttpResult.notFound ↔ EmStore.get w.emergencies emergencyId = none) ∧
    ((putEmergency w emergencyId (some "accepted") (some (some v)) now nf).2 =
        HttpResult.conflict ↔
      ∃ e, EmStore.get w.emergencies emergencyId = some e ∧ e.status ≠ "active") ∧
    (((putEmergency w emergencyId (some "accepted") (some (some v)) now nf).2 =
          HttpResult.notFound ∨
        (putEmergency w emergencyId (some "accepted") (some (some v)) now nf).2 =
          HttpResult.conflict) →
      (putEmergency w emergencyId (some "accepted") (some (some v)) now nf).1 = w) := by
  cases hget : EmStore.get w.emergencies emergencyId with
  | none =>
      rw [putEmergency_accept_notFound w emergencyId v now nf hid hv hget]
      refine ⟨by simp, by simp, fun _ => rfl⟩
  | some e =>
      by_cases ha : e.status = "active"
      · obtain ⟨hstore, hres, hok⟩ :=
          putEmergency_accept_success w emergencyId v now nf e hid hv hget ha
        refine ⟨⟨?_, ?_⟩, ⟨?_, ?_⟩, ?_⟩
        · intro hnf
          rcases hres with h1 | h1 <;> rw [h1] at hnf <;> exact absurd hnf (by decide)
        · intro hnone
          exact Option.noConfusion hnone
        · intro hc
          rcases hres with h1 | h1 <;> rw [h1] at hc <;> exact absurd hc (by decide)
        · rintro ⟨e', he', hs'⟩
          injection he' with he''
          exact absurd (he'' ▸ ha) hs'
        · intro hbad
          rcases hres with h1 | h1 <;> rcases hbad with h2 | h2 <;> rw [h1] at h2 <;>
            exact absurd h2 (by decide)
      · rw [putEmergency_accept_conflict w emergencyId v now nf e hid hv hget ha]
        refine ⟨by simp, ⟨fun _ => ⟨e, rfl, ha⟩, fun _ => rfl⟩, fun _ => rfl⟩

/-- C2 witness: the semantics applied to the sample world at a missing
    id (99, NotFound) and at an already-accepted record (Conflict). -/
theorem accept_error_semantics_witness :
    ((putEmergency sampleWorld 99 (some "accepted") (some (some 3)) 200 false).2 =
        HttpResult.notFound ↔ EmStore.get sampleWorld.emergencies 99 = none) ∧
    ((putEmergency sampleWorld 99 (some "accepted") (some (some 3)) 200 false).2 =
        HttpResult.conflict ↔
      ∃ e, EmStore.get sampleWorld.emergencies 99 = some e ∧ e.status ≠ "active") ∧
    (((putEmergency sampleWorld 99 (some "accepted") (some (some 3)) 200 false).2 =
          HttpResult.notFound ∨
        (putEmergency sampleWorld 99 (some "accepted") (some (some 3)) 200 false).2 =
          HttpResult.conflict) →
      (putEmergency sampleWorld 99 (some "accepted") (some (some 3)) 200 false).1 =
        sampleWorld) :=
  accept_error_semantics sampleWorld 99 3 200 false (by decide) (by decide)

/-- C4 counterexample: a generic status update with an explicit
    volunteer id sets volunteerId on a record that was never accepted:
    id 7 goes from (active, no volunteer) straight to (resolved,
    volunteer 5) without ever passing through `accepted`. -/
theorem volunteerId_iff_accepted_counterexample :
    (EmStore.get sampleWorld.emergencies 7).map Emergency.status = some "active" ∧
    (EmStore.get sampleWorld.emergencies 7).map Emergency.volunteerId = some none ∧
    (putEmergency sampleWorld 7 (some "resolved") (some (some 5)) 300 false).2 =
      HttpResult.ok ∧
    (EmStore.get (putEmergency sampleWorld 7 (some "resolved") (some (some 5)) 300
        false).1.emergencies 7).map Emergency.status = some "resolved" ∧
    (EmStore.get (putEmergency sampleWorld 7 (some "resolved") (some (some 5)) 300
        false).1.emergencies 7).map Emergency.volunteerId = some (some 5) :=
  ⟨rfl, rfl, rfl, rfl, rfl⟩

/-- C4 (amended): restricted to records created by Report with no
    client-supplied status and mutated only by the accept transaction
    and by generic status updates that name no volunteer id, volunteerId
    is non-null exactly when the record has passed through `accepted`,
    and a record whose status is `accepted` has always passed through
    it.  (The excluded operations break the invariant, as the
    counterexample shows.) -/
theorem volunteerId_iff_accepted_amended :
    ∀ (e : Emergency) (b : Bool), ReachRec e b →
      ((e.volunteerId ≠ none ↔ b = true) ∧ (e.status = "accepted" → b = true)) := by
  intro e b hreach
  induction hreach with
  | report elderly lat lon ts now hne =>
      refine ⟨⟨fun hv => absurd rfl hv, fun hb => Bool.noConfusion hb⟩, fun hs => ?_⟩
      rw [show (mkEmergencyDoc (deriveEmergencyId ts now) elderly lat lon none
            now).status = "active" from rfl] at hs
      exact absurd hs (by decide)
  | accept e' b' v now hr hst hv ih =>
      exact ⟨⟨fun _ => rfl, fun _ hc => Option.noConfusion hc⟩, fun _ => rfl⟩
  | patch e' b' st now hr hne hnacc ih =>
      exact ⟨ih.1, fun hs => absurd hs hnacc⟩

/-- C4 witness: the amended invariant applied to a record created by
    Report (timestamp 50) and then accepted by volunteer 3. -/
theorem volunteerId_iff_accepted_witness :
    ((acceptUpdate (mkEmergencyDoc (deriveEmergencyId (some 50) 100) 5 10 20 none 100)
          3 200).volunteerId ≠ none ↔ true = true) ∧
    ((acceptUpdate (mkEmergencyDoc (deriveEmergencyId (some 50) 100) 5 10 20 none 100)
          3 200).status = "accepted" → true = true) :=
  volunteerId_iff_accepted_amended _ true
    (ReachRec.accept _ false 3 200
      (ReachRec.report 5 10 20 (some 50) 100 (by decide)) rfl (by decide))

/-- C9: the administrative cleanup is fail-closed: with no configured
    credential (absent or empty ADMIN_TOKEN) every call is rejected with
    Forbidden and the world is unchanged; with a configured credential
    every call whose header does not match is rejected unchanged; and a
    matching non-empty credential is not rejected. -/
theorem cleanup_fail_closed :
    (∀ (w : WorldState) (h : Option String) (dq re : Option Int) (now : Int),
        cleanup w none h dq re now = (w, HttpResult.forbidden)) ∧
    (∀ (w : WorldState) (h : Option String) (dq re : Option Int) (now : Int),
        cleanup w (some "") h dq re now = (w, HttpResult.forbidden)) ∧
    (∀ (w : WorldState) (cfg : String) (h : Option String) (dq re : Option Int)
        (now : Int), h ≠ some cfg →
        cleanup w (some cfg) h dq re now = (w, HttpResult.forbidden)) ∧
    (∀ (w : WorldState) (cfg : String) (dq re : Option Int) (now : Int), cfg ≠ "" →
        (cleanup w (some cfg) (some cfg) dq re now).2 ≠ HttpResult.forbidden) := by
  refine ⟨?_, ?_, ?_, ?_⟩
  · intro w h dq re now
    simp [cleanup, tokenTruthy]
  · intro w h dq re now
    simp [cleanup, tokenTruthy]
  · intro w cfg h dq re now hne
    simp only [cleanup]
    rw [if_pos (Or.inr hne)]
  · intro w cfg dq re now hcfg
    simp only [cleanup]
    rw [if_neg ?hcond]
    case hcond =>
      rintro (hc | hc)
      · rw [show tokenTruthy (some cfg) = true by simp [tokenTruthy, hcfg]] at hc
        exact Bool.noConfusion hc
      · exact hc rfl
    exact fun hcon => HttpResult.noConfusion hcon

/-- C9 witness: the cleanup guard evaluated at an absent credential, an
    empty credential, a mismatched header, and a matching header. -/
theorem cleanup_fail_closed_witness :
    cleanup sampleWorld none (some "x") none none 500 =
      (sampleWorld, HttpResult.forbidden) ∧
    cleanup sampleWorld (some "") (some "") none none 500 =
      (sampleWorld, HttpResult.forbidden) ∧
    cleanup sampleWorld (some "s") (some "t") none none 500 =
      (sampleWorld, HttpResult.forbidden) ∧
    (cleanup sampleWorld (some "s") (some "s") none none 500).2 ≠
      HttpResult.forbidden :=
  ⟨cleanup_fail_closed.1 sampleWorld (some "x") none none 500,
   cleanup_fail_closed.2.1 sampleWorld (some "") none none 500,
   cleanup_fail_closed.2.2.1 sampleWorld "s" (some "t") none none 500 (by decide),
   cleanup_fail_closed.2.2.2 sampleWorld "s" none none 500 (by decide)⟩

/-- C10: an elderly_id equal to the integer 0 makes Report fail
    validation with a 400 and leave the world unchanged, and a
    volunteer_id equal to the integer 0 makes the accept path fail
    validation with a 400 and leave the world unchanged, because the
    handlers test these required numeric ids for truthiness. -/
theorem zero_id_validation :
    (∀ (w : WorldState) (lat lon : ℚ) (ts : Option Int) (st : Option String)
        (now : Int) (nf : Bool),
        report w ⟨some 0, some lat, some lon, ts, st⟩ now nf =
          (w, HttpResult.badRequest "elderly_id, latitude, longitude are required")) ∧
    (∀ (w : WorldState) (emergencyId now : Int) (nf : Bool), emergencyId ≠ 0 →
        putEmergency w emergencyId (some "accepted") (some (some 0)) now nf =
          (w, HttpResult.badRequest "volunteer_id is required for accepted")) := by
  constructor
  · intro w lat lon ts st now nf
    rfl
  · intro w emergencyId now nf hid
    simp only [putEmergency, if_neg hid]
    rw [if_neg (by decide : ¬ ("accepted" = "")), if_pos trivial]
    rw [if_pos trivial]

/-- C10 witness: both zero-id rejections evaluated on the sample world. -/
theorem zero_id_validation_witness :
    report sampleWorld ⟨some 0, some 1, some 2, none, none⟩ 100 false =
      (sampleWorld, HttpResult.badRequest
        "elderly_id, latitude, longitude are required") ∧
    putEmergency sampleWorld 7 (some "accepted") (some (some 0)) 200 false =
      (sampleWorld, HttpResult.badRequest "volunteer_id is required for accepted") :=
  ⟨zero_id_validation.1 sampleWorld 1 2 none none 100 false,
   zero_id_validation.2 sampleWorld 7 200 false (by decide)⟩

/-- C3 counterexample: with one reachable tokened volunteer, a Report
    whose notification dispatch fails has already durably written the
    record and the created-audit entry, but returns a server error
    rather than the created id with a created status. -/
theorem report_notify_failure_counterexample :
    (report sampleDeviceWorld ⟨some 5, some 10, some 20, some 50, none⟩ 100 true).2 =
      HttpResult.serverError ∧
    HttpResult.serverError ≠ HttpResult.created 50 ∧
    EmStore.get (report sampleDeviceWorld ⟨some 5, some 10, some 20, some 50, none⟩ 100
        true).1.emergencies 50 = some (mkEmergencyDoc 50 5 10 20 none 100) ∧
    (⟨50, "created", "elderly", some 5, none, 100⟩ : AuditEntry) ∈
      (report sampleDeviceWorld ⟨some 5, some 10, some 20, some 50, none⟩ 100
        true).1.auditLog :=
  ⟨rfl, by decide, rfl, List.mem_singleton_self _⟩

/-- C3 (amended): every validated Report lists its effects with the
    emergency write first and the created-audit write second, before any
    notification dispatch step; running the handler leaves both durable
    whether or not the dispatch fails, and when the dispatch does not
    fail the call returns the created id — but a dispatch failure makes
    the call report a server error instead of the created id. -/
theorem report_audit_before_notify (w : WorldState) (elderly : Int) (lat lon : ℚ)
    (ts : Option Int) (st : Option String) (now : Int) (helderly : elderly ≠ 0) :
    (∃ rest,
      reportSteps w ⟨some elderly, some lat, some lon, ts, st⟩ now =
        some (deriveEmergencyId ts now,
          Step.setEmergency (deriveEmergencyId ts now)
              (mkEmergencyDoc (deriveEmergencyId ts now) elderly lat lon st now) ::
          Step.addAudit ⟨deriveEmergencyId ts now, "created", "elderly", some elderly,
                         none, now⟩ :: rest) ∧
      (rest = [] ∨ ∃ tks pl a2, rest = [Step.sendMulticast tks pl, Step.addAudit a2])) ∧
    (∀ nf : Bool,
      EmStore.get (report w ⟨some elderly, some lat, some lon, ts, st⟩ now
          nf).1.emergencies (deriveEmergencyId ts now) =
        some (mkEmergencyDoc (deriveEmergencyId ts now) elderly lat lon st now) ∧
      (⟨deriveEmergencyId ts now, "created", "elderly", some elderly, none, now⟩ :
          AuditEntry) ∈
        (report w ⟨some elderly, some lat, some lon, ts, st⟩ now nf).1.auditLog ∧
      ((report w ⟨some elderly, some lat, some lon, ts, st⟩ now nf).2 =
          HttpResult.created (deriveEmergencyId ts now) ∨
        (report w ⟨some elderly, some lat, some lon, ts, st⟩ now nf).2 =
          HttpResult.serverError) ∧
      (nf = false →
        (report w ⟨some elderly, some lat, some lon, ts, st⟩ now nf).2 =
          HttpResult.created (deriveEmergencyId ts now))) := by
  constructor
  · refine ⟨_, reportSteps_eq w elderly lat lon ts st now helderly, ?_⟩
    by_cases htk : dispatchTokens w now lat lon = []
    · rw [if_pos htk]
      exact Or.inl rfl
    · rw [if_neg htk]
      exact Or.inr ⟨_, _, _, rfl⟩
  · intro nf
    exact report_run_facts w elderly lat lon ts st now nf helderly

/-- C3 witness: the amended theorem applied to a valid Report on the
    sample world (elderly 5, location (10, 20), client timestamp 50). -/
theorem report_audit_before_notify_witness :
    (∃ rest,
      reportSteps sampleWorld ⟨some 5, some 10, some 20, some 50, none⟩ 100 =
        some (deriveEmergencyId (some 50) 100,
          Step.setEmergency (deriveEmergencyId (some 50) 100)
              (mkEmergencyDoc (deriveEmergencyId (some 50) 100) 5 10 20 none 100) ::
          Step.addAudit ⟨deriveEmergencyId (some 50) 100, "created", "elderly", some 5,
                         none, 100⟩ :: rest) ∧
      (rest = [] ∨ ∃ tks pl a2, rest = [Step.sendMulticast tks pl, Step.addAudit a2])) ∧
    (∀ nf : Bool,
      EmStore.get (report sampleWorld ⟨some 5, some 10, some 20, some 50, none⟩ 100
          nf).1.emergencies (deriveEmergencyId (some 50) 100) =
        some (mkEmergencyDoc (deriveEmergencyId (some 50) 100) 5 10 20 none 100) ∧
      (⟨deriveEmergencyId (some 50) 100, "created", "elderly", some 5, none, 100⟩ :
          AuditEntry) ∈
        (report sampleWorld ⟨some 5, some 10, some 20, some 50, none⟩ 100 nf).1.auditLog ∧
      ((report sampleWorld ⟨some 5, some 10, some 20, some 50, none⟩ 100 nf).2 =
          HttpResult.created (deriveEmergencyId (some 50) 100) ∨
        (report sampleWorld ⟨some 5, some 10, some 20, some 50, none⟩ 100 nf).2 =
          HttpResult.serverError) ∧
      (nf = false →
        (report sampleWorld ⟨some 5, some 10, some 20, some 50, none⟩ 100 nf).2 =
          HttpResult.created (deriveEmergencyId (some 50) 100))) :=
  report_audit_before_notify sampleWorld 5 10 20 (some 50) none 100 (by decide)

/-- C8 counterexample: a Report whose client timestamp collides with the
    existing emergency id 7 succeeds and silently replaces the stored
    record wholesale with a different one. -/
theorem report_collision_counterexample :
    EmStore.get sampleWorld.emergencies 7 = some (mkEmergencyDoc 7 5 10 20 none 100) ∧
    (report sampleWorld ⟨some 9, some 1, some 2, some 7, none⟩ 200 false).2 =
      HttpResult.created 7 ∧
    EmStore.get (report sampleWorld ⟨some 9, some 1, some 2, some 7, none⟩ 200
        false).1.emergencies 7 = some (mkEmergencyDoc 7 9 1 2 none 200) ∧
    mkEmergencyDoc 7 9 1 2 none 200 ≠ mkEmergencyDoc 7 5 10 20 none 100 :=
  ⟨rfl, rfl, rfl, by decide⟩

/-- C8 (amended): Report performs no collision check: when the derived
    id equals the id of an existing record, the merge-disabled write
    replaces that record wholesale with the new document and the call
    still reports the created id. -/
theorem report_collision_overwrites (w : WorldState) (elderly : Int) (lat lon : ℚ)
    (eid : Int) (st : Option String) (now : Int) (old : Emergency)
    (_hold : EmStore.get w.emergencies eid = some old) (hpos : eid > 0)
    (helderly : elderly ≠ 0) :
    EmStore.get (report w ⟨some elderly, some lat, some lon, some eid, st⟩ now
        false).1.emergencies eid = some (mkEmergencyDoc eid elderly lat lon st now) ∧
    (report w ⟨some elderly, some lat, some lon, some eid, st⟩ now false).2 =
      HttpResult.created eid := by
  obtain ⟨h1, _, _, h4⟩ :=
    report_run_facts w elderly lat lon (some eid) st now false helderly
  rw [deriveEmergencyId_pos eid now hpos] at h1 h4
  exact ⟨h1, h4 rfl⟩

/-- C8 witness: the amended theorem applied to the sample world, whose
    record 7 is replaced by a Report with client timestamp 7. -/
theorem report_collision_overwrites_witness :
    EmStore.get (report sampleWorld ⟨some 9, some 1, some 2, some 7, none⟩ 200
        false).1.emergencies 7 = some (mkEmergencyDoc 7 9 1 2 none 200) ∧
    (report sampleWorld ⟨some 9, some 1, some 2, some 7, none⟩ 200 false).2 =
      HttpResult.created 7 :=
  report_collision_overwrites sampleWorld 9 1 2 7 none 200
    (mkEmergencyDoc 7 5 10 20 none 100) rfl (by decide) (by decide)

end Harmony
